import Mathlib

/-
Verification development for the Xe/twirp-codegens repository.

The repository contains protoc plugins that generate decorator types for
twirp services.  The development below shallowly embeds:

  * the descriptor data model used by `cmd/protoc-gen-twirp_analytics/main.go`
    (the fields the generator actually reads);
  * the generator itself: the line-buffer writer `P`, the per-service emitter
    `generateProtobufAnalytics`, the per-file emitter `generateFile`, and the
    driver `Generate`;
  * the per-field classifier `isRestricted` from
    `cmd/protoc-gen-twirp_ln/restricted.go`;
  * the run-time semantics of the generated analytics wrapper bodies and of
    the generated logging wrapper checked in at `proto/test.twirp.ln.go`.

External collaborators (the protogen plumbing, the typemap registry, the ln
context map) are modelled from the spec where their code is not part of the
repository; each such definition carries a doc comment saying so.
-/

namespace TwirpCodegens

/-! ## Descriptor data model

Only the fields that the generator reads are modelled.  Proto getters such as
`GetName` return the empty string for an absent field, so fields are plain
strings here. -/

structure MethodDescriptorProto where
  name : String
  inputType : String
  outputType : String
deriving Repr, DecidableEq

structure ServiceDescriptorProto where
  name : String
  method : List MethodDescriptorProto
deriving Repr, DecidableEq

structure FileDescriptorProto where
  name : String
  package : String
  messageType : List String
  service : List ServiceDescriptorProto
deriving Repr, DecidableEq

structure CodeGeneratorRequest where
  fileToGenerate : List String
  protoFile : List FileDescriptorProto
deriving Repr, DecidableEq

structure CodeGeneratorResponseFile where
  name : String
  content : String
deriving Repr, DecidableEq

structure CodeGeneratorResponse where
  file : List CodeGeneratorResponseFile
deriving Repr, DecidableEq

/-! ## Field classifier (`cmd/protoc-gen-twirp_ln/restricted.go`) -/

/-- Go `strings.Contains(s, sub)`: `sub` occurs contiguously inside `s`.
Modelled on character lists: some tail of `s` has `sub` as a prefix. -/
def goContains (s sub : List Char) : Bool :=
  s.tails.any fun t => sub.isPrefixOf t

/-- The fixed block-list from `restricted.go`. -/
def restrictedTokens : List String :=
  ["password", "token", "secret", "auth"]

/-- Translation of `isRestricted` from `cmd/protoc-gen-twirp_ln/restricted.go`: the input
contains one of the four block-listed tokens as a substring. -/
def isRestricted (inp : String) : Bool :=
  restrictedTokens.any fun thing => goContains inp.data thing.data

/-- Modelled from the spec: the loggable-fields projection emitted by the
`twirp_ln` generator (whose main source file is not in the repository
snapshot; only its classifier `restricted.go` is).  The spec says the
projection maps a message's fields to a flat name-to-value mapping,
excluding any field the classifier marks sensitive (the field is omitted,
not replaced by a placeholder). -/
def loggableFields {V : Type} (fields : List (String × V)) : List (String × V) :=
  fields.filter fun f => !isRestricted f.1

/-! ## String utilities of the analytics generator -/

/-- Go `strings.Split(s, ".")` on character lists: splits at every `'.'`,
always returns at least one (possibly empty) segment. -/
def splitDot : List Char → List (List Char)
  | [] => [[]]
  | c :: rest =>
    let r := splitDot rest
    if c = '.' then [] :: r
    else
      match r with
      | [] => [[c]]
      | h :: t => (c :: h) :: t

/-- The last element of `splitDot`, i.e. `split[len(split)-1]` in Go
(`strings.Split` never returns an empty slice, so the default is dead). -/
def lastSegChars (l : List Char) : List Char :=
  (splitDot l).getLastD []

/-- The last dot-separated segment of a string, as the generator computes it. -/
def lastSegment (s : String) : String :=
  ⟨lastSegChars s.data⟩

/-- Translation of `methodName` from `main.go`. -/
def methodName (method : MethodDescriptorProto) : String :=
  method.name

/-- Translation of `methodOutputName` from `main.go`: the basename of the output type. -/
def methodOutputName (meth : MethodDescriptorProto) : String :=
  lastSegment meth.outputType

/-- Translation of `methodInputName` from `main.go`: the basename of the input type. -/
def methodInputName (meth : MethodDescriptorProto) : String :=
  lastSegment meth.inputType

/-- Modelled from the spec: the external `stringutils.CamelCase` used by
`serviceName`.  The spec writes the decorator name as `<Service><Kind>`
directly from the service's name (its examples are already CamelCase), so the
display transformation is the identity here. -/
def CamelCase (s : String) : String := s

/-- Translation of `serviceName` from `main.go`. -/
def serviceName (service : ServiceDescriptorProto) : String :=
  CamelCase service.name

/-! ## External collaborators of the driver -/

/-- Modelled from the spec: the typemap registry is built once per request
over the full descriptor set; it registers every message definition under its
fully qualified dotted name. -/
abbrev Registry := List String

/-- Modelled from the spec: the fully qualified name a message registers
under (leading dot, then package when present). -/
def qualifiedName (pkg msg : String) : String :=
  if pkg = "" then "." ++ msg else "." ++ pkg ++ "." ++ msg

/-- Modelled from the spec: `typemap.New` ingests the full descriptor set in
one pass, registering every message's qualified name. -/
def typemapNew (files : List FileDescriptorProto) : Registry :=
  files.flatMap fun f => f.messageType.map (qualifiedName f.package)

/-- Modelled from the spec: `resolve(qualifiedTypeName)` fails when no
definition with that qualified name was registered. -/
def resolveType (reg : Registry) (n : String) : Except String String :=
  if n ∈ reg then .ok (lastSegment n) else .error ("unresolved type " ++ n)

/-- Modelled from the spec: `protogen.FilesToGenerate` maps each requested
file name to its descriptor, failing when a requested name is absent from
the full file list. -/
def filesToGen (protoFile : List FileDescriptorProto) :
    List String → Except String (List FileDescriptorProto)
  | [] => .ok []
  | n :: rest =>
    match protoFile.find? (fun f => f.name = n) with
    | some f => (filesToGen protoFile rest).map (f :: ·)
    | none => .error ("no descriptor found for file " ++ n)

/-- Modelled from the spec: `goPackageName` derives the generated package
name from the file's package declaration. -/
def goPackageName (file : FileDescriptorProto) : String :=
  file.package

/-- Modelled from the spec: `goFileName` replaces the input file's extension
with a fixed suffix specific to the decorator kind. -/
def goFileName (file : FileDescriptorProto) : String :=
  (if file.name.endsWith ".proto" then file.name.dropRight 6 else file.name)
    ++ ".twirp.analytics.go"

/-! ## The analytics generator (`cmd/protoc-gen-twirp_analytics/main.go`) -/

def version : String := "v0.0.1"

/-- The generator's state: the registry field `reg` and the line buffer
`output`.  Every write goes through `P`, which emits exactly one line, so the
buffer is kept as the list of emitted lines; its byte content is
`bufferContent`. -/
structure GenState where
  reg : Registry
  output : List String
deriving Repr

/-- Translation of `(g *generator) P(args ...string)`: write all arguments then a newline. -/
def P (g : GenState) (args : List String) : GenState :=
  { g with output := g.output ++ [String.join args] }

/-- The byte content of the buffer: each emitted line followed by the
newline `P` wrote. -/
def bufferContent (lines : List String) : String :=
  String.join (lines.map (· ++ "\n"))

/-- The body of the method loop of `generateProtobufAnalytics`, translated
statement by statement (each Go `g.P(...)` call is one `P` application); the
service's `svcName` is the loop's captured local. -/
def emitAnalyticsMethod (svcName : String) (service : ServiceDescriptorProto)
    (g : GenState) (method : MethodDescriptorProto) : GenState :=
  let methName := methodName method
  let miType := methodInputName method
  let moType := methodOutputName method
  let g := P g ["func (i ", svcName, ") ", methName, "(ctx context.Context, input *",
    miType, ") (result *", moType, ", err error) \x7b"]
  let g := P g ["\tvar track analytics.Track"]
  let g := P g ["\ttrack.Event = ", "\"", serviceName service, " ", methName, "\""]
  let g := P g ["\ttrack.UserId = ln.GetFFromContext(ctx)[\"x_forwarded_for\"].(string)"]
  let g := P g ["\tdefer func() \x7b"]
  let g := P g ["\t\tif err != nil \x7b"]
  let g := P g ["\t\t\ttrack.Event += ", "\" Error\""]
  let g := P g ["\t\t\x7d"]
  let g := P g ["\t\terr = i.client.Enqueue(track)"]
  let g := P g ["\t\tif err != nil \x7b"]
  let g := P g ["\t\t\tln.Error(ctx, err)"]
  let g := P g ["\t\t\x7d"]
  let g := P g ["\t\x7d()"]
  let g := P g []
  let g := P g ["\tresult, err = i.Next.", methName, "(ctx, input)"]
  let g := P g ["\treturn"]
  let g := P g ["\x7d"]
  P g []

/-- Translation of `generateProtobufAnalytics` from `main.go`: emits the decorator struct,
its constructor, and one wrapper per method, in declaration order. -/
def generateProtobufAnalytics (g : GenState) (file : FileDescriptorProto)
    (service : ServiceDescriptorProto) : GenState :=
  let svcName := serviceName service ++ "Analytics"
  let g := P g ["// ", svcName, " is a middleware for ", serviceName service,
    " that collects timing and error rate data for servers."]
  let g := P g ["type ", svcName, " struct \x7b"]
  let g := P g ["\tNext ", serviceName service]
  let g := P g ["\tclient analytics.Client"]
  let g := P g ["\x7d"]
  let g := P g []
  let g := P g ["func New", svcName, "(next ", serviceName service,
    ", client analytics.Client) ", serviceName service, " \x7b"]
  let g := P g ["\tvar result ", svcName]
  let g := P g ["\tresult.Next = next"]
  let g := P g ["\tresult.client = client"]
  let g := P g ["\treturn result"]
  let g := P g ["\x7d"]
  let g := P g []
  service.method.foldl (emitAnalyticsMethod svcName service) g

/-- Translation of `generateFile` from `main.go`: header comment, package clause, imports,
then every service of the file; the buffer is packaged into the response
file and reset.  The source never returns a nil response file, so the
`Option` is always `some`. -/
def generateFile (g : GenState) (file : FileDescriptorProto) :
    GenState × Option CodeGeneratorResponseFile :=
  let g := P g ["// Code generated by protoc-gen-twirp_analytics ", version,
    ", DO NOT EDIT."]
  let g := P g ["// source: ", file.name]
  let g := P g [""]
  let pkgname := goPackageName file
  let g := P g ["package ", pkgname]
  let g := P g []
  let g := P g ["import \"context\""]
  let g := P g ["import \"github.com/Xe/ln\""]
  let g := P g ["import \"gopkg.in/segmentio/analytics-go.v3\""]
  let g := P g []
  let g := file.service.foldl (fun g service => generateProtobufAnalytics g file service) g
  let resp : CodeGeneratorResponseFile :=
    { name := goFileName file, content := bufferContent g.output }
  ({ g with output := [] }, some resp)

/-- The body of `Generate`'s file loop: run `generateFile`, append the
response file when it is non-nil (`if respFile != nil` in the source). -/
def generateAccum (acc : GenState × List CodeGeneratorResponseFile)
    (f : FileDescriptorProto) : GenState × List CodeGeneratorResponseFile :=
  let gr := generateFile acc.1 f
  match gr.2 with
  | some rf => (gr.1, acc.2 ++ [rf])
  | none => (gr.1, acc.2)

/-- Translation of `Generate` from `main.go`: resolve the requested files (returning the
error when that fails), build the registry, then run `generateFile` over
each requested file in order. -/
def Generate (req : CodeGeneratorRequest) : Except String CodeGeneratorResponse :=
  match filesToGen req.protoFile req.fileToGenerate with
  | .error e => .error e
  | .ok genFiles =>
    let g0 : GenState := { reg := typemapNew req.protoFile, output := [] }
    .ok { file := (genFiles.foldl generateAccum
      (g0, ([] : List CodeGeneratorResponseFile))).2 }

/-! ## Closed forms of the emitted text

The following line lists restate, as one flat list each, exactly what the
`P`-chains above write; the structure theorems prove the stateful emitters
equal to them. -/

/-- The wrapper signature line emitted for one method. -/
def analyticsSigLine (service : ServiceDescriptorProto)
    (method : MethodDescriptorProto) : String :=
  "func (i " ++ (serviceName service ++ "Analytics") ++ ") " ++ methodName method
    ++ "(ctx context.Context, input *" ++ methodInputName method
    ++ ") (result *" ++ methodOutputName method ++ ", err error) \x7b"

/-- The unguarded contextual-string conversion line emitted in every
wrapper body. -/
def userIdAssertionLine : String :=
  "\ttrack.UserId = ln.GetFFromContext(ctx)[\"x_forwarded_for\"].(string)"

/-- The lines one method's wrapper occupies in the output. -/
def analyticsMethodLines (service : ServiceDescriptorProto)
    (method : MethodDescriptorProto) : List String :=
  [analyticsSigLine service method,
   "\tvar track analytics.Track",
   "\ttrack.Event = " ++ "\"" ++ serviceName service ++ " " ++ methodName method ++ "\"",
   userIdAssertionLine,
   "\tdefer func() \x7b",
   "\t\tif err != nil \x7b",
   "\t\t\ttrack.Event += " ++ "\" Error\"",
   "\t\t\x7d",
   "\t\terr = i.client.Enqueue(track)",
   "\t\tif err != nil \x7b",
   "\t\t\tln.Error(ctx, err)",
   "\t\t\x7d",
   "\t\x7d()",
   "",
   "\tresult, err = i.Next." ++ methodName method ++ "(ctx, input)",
   "\treturn",
   "\x7d",
   ""]

/-- The constructor declaration line: its declared return type is the
original service interface. -/
def analyticsConstructorLine (service : ServiceDescriptorProto) : String :=
  "func New" ++ (serviceName service ++ "Analytics") ++ "(next " ++ serviceName service
    ++ ", client analytics.Client) " ++ serviceName service ++ " \x7b"

/-- The struct and constructor lines emitted before a service's method
wrappers. -/
def analyticsHeaderLines (service : ServiceDescriptorProto) : List String :=
  ["// " ++ (serviceName service ++ "Analytics") ++ " is a middleware for "
     ++ serviceName service ++ " that collects timing and error rate data for servers.",
   "type " ++ (serviceName service ++ "Analytics") ++ " struct \x7b",
   "\tNext " ++ serviceName service,
   "\tclient analytics.Client",
   "\x7d",
   "",
   analyticsConstructorLine service,
   "\tvar result " ++ (serviceName service ++ "Analytics"),
   "\tresult.Next = next",
   "\tresult.client = client",
   "\treturn result",
   "\x7d",
   ""]

/-- All lines emitted for one service. -/
def analyticsServiceLines (service : ServiceDescriptorProto) : List String :=
  analyticsHeaderLines service
    ++ service.method.flatMap (analyticsMethodLines service)

/-- The per-file preamble lines. -/
def fileHeaderLines (file : FileDescriptorProto) : List String :=
  ["// Code generated by protoc-gen-twirp_analytics " ++ version ++ ", DO NOT EDIT.",
   "// source: " ++ file.name,
   "",
   "package " ++ goPackageName file,
   "",
   "import \"context\"",
   "import \"github.com/Xe/ln\"",
   "import \"gopkg.in/segmentio/analytics-go.v3\"",
   ""]

/-- All lines of one generated file. -/
def fileLines (file : FileDescriptorProto) : List String :=
  fileHeaderLines file ++ file.service.flatMap analyticsServiceLines

/-- The response-file entry one input file produces. -/
def fileOutput (file : FileDescriptorProto) : CodeGeneratorResponseFile :=
  { name := goFileName file, content := bufferContent (fileLines file) }

/-! ## Run-time semantics of the generated wrapper bodies

The analytics wrapper body is the fixed template emitted by
`generateProtobufAnalytics` (lines 106-123 of `main.go`); the logging
wrapper is the checked-in generated code `proto/test.twirp.ln.go`.  Both are
embedded as functions over an explicit delegate, sink, context and input. -/

/-- A dynamically typed value held in the per-call `ln.F` context map; the
wrapper's type assertion succeeds only on `str`. -/
inductive GoVal where
  | str : String → GoVal
  | other : GoVal
deriving Repr, DecidableEq

/-- The per-call context as the `ln.F` field map reachable from it. -/
abbrev Ctx := List (String × GoVal)

/-- Go map lookup on the context's field map (first binding wins). -/
def ctxLookup (ctx : Ctx) (k : String) : Option GoVal :=
  (ctx.find? fun p => p.1 = k).map (·.2)

/-- Translation of `ln.WithF(ctx, fields)` from the logging wrapper: the new fields shadow
existing ones. -/
def lnWithF (ctx : Ctx) (fields : List (String × GoVal)) : Ctx :=
  fields ++ ctx

/-- The `analytics.Track` record the wrapper fills in. -/
structure Track where
  event : String
  userId : String
deriving Repr, DecidableEq

/-- Observable actions of one analytics wrapper call, in order. -/
inductive TraceEv where
  | delegateCall
  | submit : Track → TraceEv
  | logError : String → TraceEv
deriving Repr, DecidableEq

/-- Outcome of one analytics wrapper call: whether the unguarded type
assertion panicked, the returned `(result, err)` pair, and the ordered
trace of observable actions. -/
structure AnalyticsRun (ρ : Type) where
  panicked : Bool
  result : Option ρ
  err : Option String
  trace : List TraceEv
deriving Repr

/-- One call through the generated analytics wrapper
`func (i SAnalytics) M(ctx, input)`.  Statement by statement:
`track.Event` is set to `"<Service> <Method>"`; `track.UserId` is the
unguarded `.(string)` assertion on the context's `"x_forwarded_for"` field
(panicking before the delegate is called, and before the deferred function
is even registered, when the field is absent or not a string); the delegate
runs; the deferred function appends `" Error"` to the event name when the
delegate erred, unconditionally reassigns `err` to `Enqueue`'s result, and
logs that result when non-nil. -/
def analyticsMethodRun {ι ρ : Type} (svcName methName : String)
    (next : Ctx → ι → Option ρ × Option String)
    (enqueue : Track → Option String) (ctx : Ctx) (input : ι) : AnalyticsRun ρ :=
  let event0 := svcName ++ " " ++ methName
  match ctxLookup ctx "x_forwarded_for" with
  | some (GoVal.str uid) =>
    let callRes := next ctx input
    let track : Track :=
      { event := if callRes.2.isSome then event0 ++ " Error" else event0
        userId := uid }
    let enqErr := enqueue track
    { panicked := false
      result := callRes.1
      err := enqErr
      trace := TraceEv.delegateCall :: TraceEv.submit track ::
        (enqErr.map TraceEv.logError).toList }
  | _ => { panicked := true, result := none, err := none, trace := [] }

/-- One structured log record emitted by the logging wrapper: the error and
the original input value. -/
structure LogRecord (ι : Type) where
  err : String
  input : ι
deriving Repr

/-- Outcome of one logging wrapper call. -/
structure LoggingRun (ι ρ : Type) where
  result : Option ρ
  err : Option String
  logs : List (LogRecord ι)
deriving Repr

/-- One call through the generated logging wrapper
(`HelloWorldLogging.Speak` in `proto/test.twirp.ln.go`, parameterized by the
package/service/method names baked into its `ln.WithF` fields): augment the
context, delegate, log the error with the original input when non-nil, and
return the delegate's result and error unchanged. -/
def loggingMethodRun {ι ρ : Type} (pkg svc meth : String)
    (next : Ctx → ι → Option ρ × Option String) (ctx : Ctx) (input : ι) :
    LoggingRun ι ρ :=
  let ctx := lnWithF ctx
    [("twirp_package", GoVal.str pkg),
     ("twirp_service", GoVal.str svc),
     ("twirp_method", GoVal.str meth)]
  let callRes := next ctx input
  { result := callRes.1
    err := callRes.2
    logs := (callRes.2.map fun e => { err := e, input := input }).toList }

/-- The submit-classifying predicate on trace events. -/
def isSubmit : TraceEv → Bool
  | TraceEv.submit _ => true
  | _ => false

/-! ## Example descriptors used by witnesses and counterexamples -/

/-- A method whose input type resolves in the registry but whose output type
reference `.foo.Bar` names no registered message. -/
def exampleMethod : MethodDescriptorProto :=
  { name := "Speak", inputType := ".us.xeserv.api.Words", outputType := ".foo.Bar" }

def exampleService : ServiceDescriptorProto :=
  { name := "HelloWorld", method := [exampleMethod] }

def exampleFile : FileDescriptorProto :=
  { name := "test.proto", package := "us.xeserv.api", messageType := ["Words"],
    service := [exampleService] }

def exampleReq : CodeGeneratorRequest :=
  { fileToGenerate := ["test.proto"], protoFile := [exampleFile] }

/-- A requested file declaring no services at all. -/
def emptyServiceFile : FileDescriptorProto :=
  { name := "empty.proto", package := "x", messageType := [], service := [] }

def emptyServiceReq : CodeGeneratorRequest :=
  { fileToGenerate := ["empty.proto"], protoFile := [emptyServiceFile] }

/-! ## Structure lemmas: the stateful emitters against their closed forms -/

lemma emitAnalyticsMethod_eq (service : ServiceDescriptorProto) (g : GenState)
    (method : MethodDescriptorProto) :
    emitAnalyticsMethod (serviceName service ++ "Analytics") service g method
      = { reg := g.reg, output := g.output ++ analyticsMethodLines service method } := by
  simp [emitAnalyticsMethod, P, analyticsMethodLines, analyticsSigLine,
    userIdAssertionLine, String.join, methodName, List.append_assoc]

lemma foldl_emitAnalyticsMethod (service : ServiceDescriptorProto)
    (ms : List MethodDescriptorProto) :
    ∀ g : GenState,
      ms.foldl (emitAnalyticsMethod (serviceName service ++ "Analytics") service) g
        = { reg := g.reg,
            output := g.output ++ ms.flatMap (analyticsMethodLines service) } := by
  induction ms with
  | nil => intro g; simp
  | cons m ms ih =>
    intro g
    simp only [List.foldl_cons, List.flatMap_cons, emitAnalyticsMethod_eq, ih,
      List.append_assoc]

lemma generateProtobufAnalytics_eq (g : GenState) (file : FileDescriptorProto)
    (service : ServiceDescriptorProto) :
    generateProtobufAnalytics g file service
      = { reg := g.reg, output := g.output ++ analyticsServiceLines service } := by
  unfold generateProtobufAnalytics
  rw [foldl_emitAnalyticsMethod]
  simp [P, analyticsServiceLines, analyticsHeaderLines, analyticsConstructorLine,
    String.join, List.append_assoc]

lemma foldl_generateProtobufAnalytics (file : FileDescriptorProto)
    (ss : List ServiceDescriptorProto) :
    ∀ g : GenState,
      ss.foldl (fun g service => generateProtobufAnalytics g file service) g
        = { reg := g.reg, output := g.output ++ ss.flatMap analyticsServiceLines } := by
  induction ss with
  | nil => intro g; simp
  | cons s ss ih =>
    intro g
    rw [List.foldl_cons]
    show ss.foldl _ (generateProtobufAnalytics g file s) = _
    rw [generateProtobufAnalytics_eq, ih]
    simp [List.append_assoc]

lemma generateFile_eq (g : GenState) (file : FileDescriptorProto) :
    generateFile g file
      = ({ reg := g.reg, output := [] },
         some { name := goFileName file,
                content := bufferContent (g.output ++ fileLines file) }) := by
  simp only [generateFile]
  rw [foldl_generateProtobufAnalytics]
  simp [P, fileLines, fileHeaderLines, String.join, List.append_assoc]

lemma generateAccum_eq (acc : GenState × List CodeGeneratorResponseFile)
    (f : FileDescriptorProto) :
    generateAccum acc f
      = ({ reg := acc.1.reg, output := [] },
         acc.2 ++ [{ name := goFileName f,
                     content := bufferContent (acc.1.output ++ fileLines f) }]) := by
  simp only [generateAccum]
  rw [generateFile_eq]

lemma generateLoop_eq (fs : List FileDescriptorProto) :
    ∀ (reg : Registry) (files : List CodeGeneratorResponseFile),
      fs.foldl generateAccum (({ reg := reg, output := [] } : GenState), files)
        = ({ reg := reg, output := [] }, files ++ fs.map fileOutput) := by
  induction fs with
  | nil => intro reg files; simp
  | cons f fs ih =>
    intro reg files
    rw [List.foldl_cons, generateAccum_eq]
    simp only []
    rw [ih]
    simp [fileOutput, List.append_assoc]

lemma Generate_eq (req : CodeGeneratorRequest) (gf : List FileDescriptorProto)
    (h : filesToGen req.protoFile req.fileToGenerate = .ok gf) :
    Generate req = .ok { file := gf.map fileOutput } := by
  unfold Generate
  rw [h]
  simp only []
  rw [generateLoop_eq]
  simp

/-! ## Properties of `splitDot` and the last-segment computation -/

lemma splitDot_ne_nil (l : List Char) : splitDot l ≠ [] := by
  cases l with
  | nil => simp [splitDot]
  | cons c rest =>
    simp only [splitDot]
    split
    · simp
    · cases hr : splitDot rest <;> simp

lemma splitDot_no_dot (l : List Char) (h : '.' ∉ l) : splitDot l = [l] := by
  induction l with
  | nil => rfl
  | cons c rest ih =>
    simp only [List.mem_cons, not_or] at h
    obtain ⟨hc, hrest⟩ := h
    simp only [splitDot]
    rw [if_neg fun hcc => hc hcc.symm, ih hrest]

lemma dot_mem_iff_two_le_splitDot_length (l : List Char) :
    '.' ∈ l ↔ 2 ≤ (splitDot l).length := by
  induction l with
  | nil => simp [splitDot]
  | cons c rest ih =>
    simp only [splitDot, List.mem_cons]
    by_cases hc : c = '.'
    · subst hc
      have h1 : 1 ≤ (splitDot rest).length :=
        List.length_pos.mpr (splitDot_ne_nil rest)
      simp
      omega
    · rw [if_neg hc]
      cases hr : splitDot rest with
      | nil => exact absurd hr (splitDot_ne_nil rest)
      | cons hd tl =>
        rw [hr] at ih
        simp only [List.length_cons] at ih ⊢
        constructor
        · rintro (hcc | hm)
          · exact absurd hcc.symm hc
          · exact ih.mp hm
        · intro hlen
          exact Or.inr (ih.mpr hlen)

lemma lastSegChars_nil : lastSegChars [] = [] := rfl

lemma lastSegChars_dot_cons (rest : List Char) :
    lastSegChars ('.' :: rest) = lastSegChars rest := by
  have hsplit : splitDot ('.' :: rest) = [] :: splitDot rest := by
    simp [splitDot]
  rw [lastSegChars, lastSegChars, hsplit, List.getLastD_cons]

lemma lastSegChars_no_dot (l : List Char) (h : '.' ∉ l) : lastSegChars l = l := by
  simp [lastSegChars, splitDot_no_dot l h]

lemma lastSegChars_cons_of_dot_mem (c : Char) (rest : List Char) (hc : c ≠ '.')
    (hm : '.' ∈ rest) : lastSegChars (c :: rest) = lastSegChars rest := by
  simp only [lastSegChars, splitDot]
  rw [if_neg hc]
  cases hr : splitDot rest with
  | nil => exact absurd hr (splitDot_ne_nil rest)
  | cons hd tl =>
    have htl : tl ≠ [] := by
      have h2 := (dot_mem_iff_two_le_splitDot_length rest).mp hm
      rw [hr] at h2
      simp only [List.length_cons] at h2
      intro hnil
      rw [hnil] at h2
      simp at h2
    cases tl with
    | nil => exact absurd rfl htl
    | cons a as => simp [List.getLastD_cons]

lemma dot_not_mem_lastSegChars (l : List Char) : '.' ∉ lastSegChars l := by
  induction l with
  | nil => simp [lastSegChars_nil]
  | cons c rest ih =>
    by_cases hc : c = '.'
    · subst hc
      rw [lastSegChars_dot_cons]
      exact ih
    · by_cases hm : '.' ∈ rest
      · rw [lastSegChars_cons_of_dot_mem c rest hc hm]
        exact ih
      · have hno : '.' ∉ c :: rest := by
          simp only [List.mem_cons, not_or]
          exact ⟨fun hh => hc hh.symm, hm⟩
        rw [lastSegChars_no_dot _ hno]
        exact hno

lemma lastSegChars_decomp (l : List Char) :
    lastSegChars l = l ∨ ∃ pre, l = pre ++ '.' :: lastSegChars l := by
  induction l with
  | nil => exact Or.inl rfl
  | cons c rest ih =>
    by_cases hc : c = '.'
    · subst hc
      rw [lastSegChars_dot_cons]
      rcases ih with h | ⟨pre, hp⟩
      · exact Or.inr ⟨[], by simp [h]⟩
      · refine Or.inr ⟨'.' :: pre, ?_⟩
        rw [List.cons_append]
        exact congrArg ('.' :: ·) hp
    · by_cases hm : '.' ∈ rest
      · rw [lastSegChars_cons_of_dot_mem c rest hc hm]
        rcases ih with h | ⟨pre, hp⟩
        · have hnd := dot_not_mem_lastSegChars rest
          rw [h] at hnd
          exact absurd hm hnd
        · refine Or.inr ⟨c :: pre, ?_⟩
          rw [List.cons_append]
          exact congrArg (c :: ·) hp
      · have hno : '.' ∉ c :: rest := by
          simp only [List.mem_cons, not_or]
          exact ⟨fun hh => hc hh.symm, hm⟩
        rw [lastSegChars_no_dot _ hno]
        exact Or.inl rfl

lemma lastSegChars_ends_dot (l : List Char) (h : l.getLast? = some '.') :
    lastSegChars l = [] := by
  rcases lastSegChars_decomp l with hd | ⟨pre, hp⟩
  · have hmem : '.' ∈ l := by
      obtain ⟨hne, hx⟩ := List.mem_getLast?_eq_getLast (by rw [h]; rfl)
      rw [hx]
      exact List.getLast_mem hne
    have hnd := dot_not_mem_lastSegChars l
    rw [hd] at hnd
    exact absurd hmem hnd
  · cases htl : lastSegChars l with
    | nil => rfl
    | cons a as =>
      rw [htl] at hp
      rw [hp, List.getLast?_append_of_ne_nil pre (by simp),
        List.getLast?_cons_cons] at h
      have hmem : '.' ∈ a :: as := by
        obtain ⟨hne, hx⟩ := List.mem_getLast?_eq_getLast (by rw [h]; rfl)
        rw [hx]
        exact List.getLast_mem hne
      have hnd := dot_not_mem_lastSegChars l
      rw [htl] at hnd
      exact absurd hmem hnd

/-! ## Properties of the substring classifier -/

lemma goContains_iff (s sub : List Char) : goContains s sub = true ↔ sub <:+: s := by
  unfold goContains
  rw [List.any_eq_true]
  constructor
  · rintro ⟨t, ht, hp⟩
    rw [List.mem_tails _ _] at ht
    rw [ List.isPrefixOf_iff_prefix] at hp
    exact List.infix_iff_prefix_suffix.mpr ⟨t, hp, ht⟩
  · intro h
    obtain ⟨t, hp, hs⟩ := List.infix_iff_prefix_suffix.mp h
    exact ⟨t, (List.mem_tails _ _).mpr hs, List.isPrefixOf_iff_prefix.mpr hp⟩

lemma isRestricted_iff (s : String) :
    isRestricted s = true ↔ ∃ t ∈ restrictedTokens, t.data <:+: s.data := by
  unfold isRestricted
  rw [List.any_eq_true]
  constructor
  · rintro ⟨t, ht, hc⟩
    exact ⟨t, ht, (goContains_iff s.data t.data).mp hc⟩
  · rintro ⟨t, ht, hi⟩
    exact ⟨t, ht, (goContains_iff s.data t.data).mpr hi⟩

/-! ## Claim theorems -/

/-- C4: for every service, the emitted block is the struct/constructor header
followed by exactly one wrapper per method of the service, in declaration
order; each wrapper's signature line carries the method's name and the
basenames of its input and output types; and the constructor's declaration
line (position 6 of the header) declares the original service interface as
its return type, so the constructed decorator is usable wherever the service
is expected. -/
theorem analytics_decorator_structural_fidelity
    (g : GenState) (file : FileDescriptorProto) (service : ServiceDescriptorProto) :
    (generateProtobufAnalytics g file service).output
      = g.output ++ analyticsHeaderLines service
          ++ service.method.flatMap (analyticsMethodLines service)
    ∧ (∀ m : MethodDescriptorProto,
        (analyticsMethodLines service m).head? = some
          ("func (i " ++ (serviceName service ++ "Analytics") ++ ") " ++ methodName m
            ++ "(ctx context.Context, input *" ++ methodInputName m
            ++ ") (result *" ++ methodOutputName m ++ ", err error) \x7b"))
    ∧ (analyticsHeaderLines service)[6]? = some
        ("func New" ++ (serviceName service ++ "Analytics") ++ "(next "
          ++ serviceName service ++ ", client analytics.Client) "
          ++ serviceName service ++ " \x7b") := by
  refine ⟨?_, fun m => rfl, rfl⟩
  rw [generateProtobufAnalytics_eq]
  simp [analyticsServiceLines, List.append_assoc]

/-- C5: generation is a pure function of the request — whenever the requested
files resolve, the response is exactly the per-file closed form `fileOutput`
mapped over them in request order, so two runs on identical input are
byte-identical; and each file's content lists its services, and inside them
their methods, in declaration order. -/
theorem generation_deterministic (req : CodeGeneratorRequest)
    (gf : List FileDescriptorProto)
    (h : filesToGen req.protoFile req.fileToGenerate = .ok gf) :
    Generate req = .ok { file := gf.map fileOutput }
    ∧ ∀ file ∈ gf, (fileOutput file).content
        = bufferContent (fileHeaderLines file
            ++ file.service.flatMap analyticsServiceLines) := by
  refine ⟨Generate_eq req gf h, fun f hf => ?_⟩
  simp [fileOutput, fileLines]

/-- Witness for C5 at a concrete one-file request. -/
theorem generation_deterministic_witness :
    Generate exampleReq = .ok { file := [exampleFile].map fileOutput }
    ∧ ∀ file ∈ [exampleFile], (fileOutput file).content
        = bufferContent (fileHeaderLines file
            ++ file.service.flatMap analyticsServiceLines) :=
  generation_deterministic exampleReq [exampleFile] (by rfl)

/-- C3 counterexample: a requested file with zero services still yields a
`GeneratedFile` entry in the response — `generateFile` unconditionally
returns a response file (header, package clause and imports), so the
claimed "no output at all" is false on the code. -/
theorem zero_service_file_counterexample :
    emptyServiceFile.service = []
    ∧ Generate emptyServiceReq = .ok { file := [fileOutput emptyServiceFile] } := by
  exact ⟨rfl, by rfl⟩

/-- C3 amended: every requested file yields exactly one `GeneratedFile`,
whether or not it declares services; a zero-service file produces a file
holding only the preamble, not no file.  (`generateFile` never returns a
nil response file.) -/
theorem generated_file_per_requested_file (req : CodeGeneratorRequest)
    (gf : List FileDescriptorProto)
    (h : filesToGen req.protoFile req.fileToGenerate = .ok gf) :
    (Generate req).map (fun r => r.file.length) = .ok gf.length
    ∧ ∀ (g : GenState) (file : FileDescriptorProto),
        ((generateFile g file).2).isSome = true := by
  constructor
  · rw [Generate_eq req gf h]
    simp [Except.map]
  · intro g file
    rw [generateFile_eq]
    rfl

/-- Witness for the amended C3, at the zero-service request itself. -/
theorem generated_file_per_requested_file_witness :
    (Generate emptyServiceReq).map (fun r => r.file.length) = .ok 1
    ∧ ∀ (g : GenState) (file : FileDescriptorProto),
        ((generateFile g file).2).isSome = true :=
  generated_file_per_requested_file emptyServiceReq [emptyServiceFile] (by rfl)

/-- C2 counterexample: `exampleReq` contains a method whose output type
reference `.foo.Bar` does not resolve in the registry built from the
request's files, yet the whole request succeeds and the response carries a
`GeneratedFile` — the generator never consults the registry for method
types, so the claimed fatal abort is false on the code. -/
theorem unresolved_reference_counterexample :
    resolveType (typemapNew exampleReq.protoFile) exampleMethod.outputType
      = .error "unresolved type .foo.Bar"
    ∧ (Generate exampleReq).map (fun r => r.file.length) = .ok 1 := by
  exact ⟨by rfl, by rfl⟩

/-- C2 amended: a method input/output type reference that does not resolve
in the registry does not abort anything: whenever the requested file names
themselves resolve, generation succeeds and produces one `GeneratedFile`
per requested file, type references notwithstanding. -/
theorem unresolved_types_do_not_abort (req : CodeGeneratorRequest)
    (gf : List FileDescriptorProto)
    (h : filesToGen req.protoFile req.fileToGenerate = .ok gf) :
    ∃ resp, Generate req = .ok resp ∧ resp.file.length = gf.length :=
  ⟨{ file := gf.map fileOutput }, Generate_eq req gf h, by simp⟩

/-- Witness for the amended C2, at the request containing the unresolved
output type. -/
theorem unresolved_types_do_not_abort_witness :
    ∃ resp, Generate exampleReq = .ok resp ∧ resp.file.length = 1 :=
  unresolved_types_do_not_abort exampleReq [exampleFile] (by rfl)

/-- C10: the input/output type identifiers in wrapper signatures are the
total last-dot-segment computation: `methodInputName`/`methodOutputName`
are `lastSegment` of the raw reference string, where `lastSegment` returns
the whole string when it has no `'.'`, the empty string when it ends in
`'.'`, and in general a dot-free suffix preceded by a `'.'`; and the
emitted response file is independent of the registry `Generate` builds —
the emitter never consults it. -/
theorem method_type_names_total_basename :
    (∀ meth : MethodDescriptorProto,
       methodInputName meth = lastSegment meth.inputType
       ∧ methodOutputName meth = lastSegment meth.outputType)
    ∧ (∀ s : String,
        ('.' ∉ s.data → lastSegment s = s)
        ∧ (s.data.getLast? = some '.' → lastSegment s = "")
        ∧ '.' ∉ (lastSegment s).data
        ∧ (lastSegment s = s
            ∨ ∃ pre : List Char, s.data = pre ++ '.' :: (lastSegment s).data))
    ∧ (∀ (reg reg' : Registry) (out : List String) (file : FileDescriptorProto),
        (generateFile { reg := reg, output := out } file).2
          = (generateFile { reg := reg', output := out } file).2) := by
  refine ⟨fun meth => ⟨rfl, rfl⟩, fun s => ⟨?_, ?_, ?_, ?_⟩,
    fun reg reg' out file => ?_⟩
  · intro h
    show (⟨lastSegChars s.data⟩ : String) = s
    rw [lastSegChars_no_dot s.data h]
  · intro h
    show (⟨lastSegChars s.data⟩ : String) = ""
    rw [lastSegChars_ends_dot s.data h]
  · exact dot_not_mem_lastSegChars s.data
  · rcases lastSegChars_decomp s.data with h | ⟨pre, hp⟩
    · left
      show (⟨lastSegChars s.data⟩ : String) = s
      rw [h]
    · exact Or.inr ⟨pre, hp⟩
  · rw [generateFile_eq, generateFile_eq]

/-- Witness for C10 at concrete strings: a dot-free reference, a reference
ending in a dot, and the example method's qualified input type. -/
theorem method_type_names_total_basename_witness :
    lastSegment "Words" = "Words"
    ∧ lastSegment "a.b." = ""
    ∧ methodInputName exampleMethod = lastSegment exampleMethod.inputType :=
  ⟨(method_type_names_total_basename.2.1 "Words").1 (by decide),
   ((method_type_names_total_basename.2.1 "a.b.").2.1 (by decide)),
   (method_type_names_total_basename.1 exampleMethod).1⟩

/-- C6: the classifier returns `true` exactly when the field name contains
one of the four block-listed tokens as a case-sensitive contiguous
substring; in particular `password`, `auth_token`, `client_secret` and
`oauth` are sensitive while `username` and `count` are not, and the
loggable-fields projection keeps a field exactly when it is present and not
sensitive — omitting the four sensitive names and keeping the other two. -/
theorem isSensitive_substring_policy :
    (∀ s : String, isRestricted s = true ↔ ∃ t ∈ restrictedTokens, t.data <:+: s.data)
    ∧ (isRestricted "password" = true ∧ isRestricted "auth_token" = true
       ∧ isRestricted "client_secret" = true ∧ isRestricted "oauth" = true
       ∧ isRestricted "username" = false ∧ isRestricted "count" = false)
    ∧ (∀ (V : Type) (fields : List (String × V)) (f : String × V),
        f ∈ loggableFields fields ↔ f ∈ fields ∧ isRestricted f.1 = false)
    ∧ loggableFields
        [("password", GoVal.other), ("auth_token", GoVal.other),
         ("client_secret", GoVal.other), ("oauth", GoVal.other),
         ("username", GoVal.other), ("count", GoVal.other)]
      = [("username", GoVal.other), ("count", GoVal.other)] := by
  refine ⟨isRestricted_iff,
    ⟨by decide, by decide, by decide, by decide, by decide, by decide⟩,
    fun V fields f => ?_, by decide⟩
  simp [loggableFields, List.mem_filter]

/-- C8: the logging wrapper returns exactly the delegate's result and error
(computed on the field-augmented context) and emits one structured record
carrying the error and the original input precisely when the delegate
returned a non-nil error. -/
theorem logging_wrapper_frame {ι ρ : Type} (pkg svc meth : String)
    (next : Ctx → ι → Option ρ × Option String) (ctx : Ctx) (input : ι) :
    loggingMethodRun pkg svc meth next ctx input
      = { result := (next (lnWithF ctx
            [("twirp_package", GoVal.str pkg), ("twirp_service", GoVal.str svc),
             ("twirp_method", GoVal.str meth)]) input).1,
          err := (next (lnWithF ctx
            [("twirp_package", GoVal.str pkg), ("twirp_service", GoVal.str svc),
             ("twirp_method", GoVal.str meth)]) input).2,
          logs := ((next (lnWithF ctx
            [("twirp_package", GoVal.str pkg), ("twirp_service", GoVal.str svc),
             ("twirp_method", GoVal.str meth)]) input).2.map
              fun e => { err := e, input := input }).toList }
    ∧ ((loggingMethodRun pkg svc meth next ctx input).logs ≠ []
        ↔ (loggingMethodRun pkg svc meth next ctx input).err ≠ none) := by
  refine ⟨rfl, ?_⟩
  cases hres : (next (lnWithF ctx
      [("twirp_package", GoVal.str pkg), ("twirp_service", GoVal.str svc),
       ("twirp_method", GoVal.str meth)]) input) with
  | mk r e => cases e <;> simp [loggingMethodRun, hres]

lemma countP_submit_trace (t : Track) (e : Option String) :
    ((TraceEv.delegateCall :: TraceEv.submit t
        :: (e.map TraceEv.logError).toList).countP fun ev => isSubmit ev) = 1 := by
  cases e <;> simp [isSubmit, List.countP_cons, List.countP_nil]

/-- C7: when the contextual field holds a string (the non-faulting case),
one call produces the trace delegate-call first, then exactly one
submission, then at most a failure log; the submitted event's name is
`"<Service> <Method>"` with `" Error"` appended exactly when the delegate
returned a non-nil error. -/
theorem analytics_exactly_one_submission {ι ρ : Type} (svcName methName uid : String)
    (next : Ctx → ι → Option ρ × Option String) (enqueue : Track → Option String)
    (ctx : Ctx) (input : ι)
    (h : ctxLookup ctx "x_forwarded_for" = some (GoVal.str uid)) :
    (analyticsMethodRun svcName methName next enqueue ctx input).trace
      = TraceEv.delegateCall
        :: TraceEv.submit
            { event := if (next ctx input).2.isSome
                then svcName ++ " " ++ methName ++ " Error"
                else svcName ++ " " ++ methName,
              userId := uid }
        :: ((enqueue
            { event := if (next ctx input).2.isSome
                then svcName ++ " " ++ methName ++ " Error"
                else svcName ++ " " ++ methName,
              userId := uid }).map TraceEv.logError).toList
    ∧ ((analyticsMethodRun svcName methName next enqueue ctx input).trace.countP
        fun ev => isSubmit ev) = 1 := by
  have htr : (analyticsMethodRun svcName methName next enqueue ctx input).trace
      = TraceEv.delegateCall
        :: TraceEv.submit
            { event := if (next ctx input).2.isSome
                then svcName ++ " " ++ methName ++ " Error"
                else svcName ++ " " ++ methName,
              userId := uid }
        :: ((enqueue
            { event := if (next ctx input).2.isSome
                then svcName ++ " " ++ methName ++ " Error"
                else svcName ++ " " ++ methName,
              userId := uid }).map TraceEv.logError).toList := by
    unfold analyticsMethodRun
    rw [h]
  refine ⟨htr, ?_⟩
  rw [htr]
  exact countP_submit_trace _ _

/-- Witness for C7: a delegate that fails with `"boom"` under an
always-succeeding sink submits exactly one event named
`"HelloWorld Speak Error"`. -/
theorem analytics_exactly_one_submission_witness :
    (analyticsMethodRun "HelloWorld" "Speak"
        (fun _ _ => ((none : Option Unit), some "boom")) (fun _ => none)
        [("x_forwarded_for", GoVal.str "1.2.3.4")] ()).trace
      = [TraceEv.delegateCall,
         TraceEv.submit { event := "HelloWorld Speak Error", userId := "1.2.3.4" }]
    ∧ ((analyticsMethodRun "HelloWorld" "Speak"
        (fun _ _ => ((none : Option Unit), some "boom")) (fun _ => none)
        [("x_forwarded_for", GoVal.str "1.2.3.4")] ()).trace.countP
        fun ev => isSubmit ev) = 1 :=
  analytics_exactly_one_submission "HelloWorld" "Speak" "1.2.3.4"
    (fun _ _ => ((none : Option Unit), some "boom")) (fun _ => none)
    [("x_forwarded_for", GoVal.str "1.2.3.4")] () (by rfl)

/-- C9: the generated wrapper extracts the user identifier through an
unguarded `.(string)` assertion on the context's `"x_forwarded_for"` field
before delegating — when the field is absent or holds a non-string value
the call panics with an empty trace (the delegate is never reached and
nothing is submitted) — while the generator emits that unguarded conversion
line for every method of every service unconditionally, never rejecting
such a method at generation time. -/
theorem analytics_unguarded_context_assertion {ι ρ : Type}
    (svcName methName : String) (next : Ctx → ι → Option ρ × Option String)
    (enqueue : Track → Option String) (ctx : Ctx) (input : ι)
    (h : ∀ u : String, ctxLookup ctx "x_forwarded_for" ≠ some (GoVal.str u)) :
    ((analyticsMethodRun svcName methName next enqueue ctx input).panicked = true
      ∧ (analyticsMethodRun svcName methName next enqueue ctx input).trace = [])
    ∧ ∀ (g : GenState) (file : FileDescriptorProto)
        (service : ServiceDescriptorProto),
        ∀ m ∈ service.method,
          userIdAssertionLine ∈ (generateProtobufAnalytics g file service).output := by
  constructor
  · unfold analyticsMethodRun
    cases hc : ctxLookup ctx "x_forwarded_for" with
    | none => exact ⟨rfl, rfl⟩
    | some v =>
      cases v with
      | str u => exact absurd hc (h u)
      | other => exact ⟨rfl, rfl⟩
  · intro g file service m hm
    rw [generateProtobufAnalytics_eq]
    simp only [List.mem_append]
    right
    simp only [analyticsServiceLines, List.mem_append]
    right
    rw [List.mem_flatMap]
    exact ⟨m, hm, by simp [analyticsMethodLines]⟩

/-- Witness for C9: a context whose `"x_forwarded_for"` field holds a
non-string value makes the wrapper panic before any observable action. -/
theorem analytics_unguarded_context_assertion_witness :
    (((analyticsMethodRun "HelloWorld" "Speak"
        (fun _ _ => ((none : Option Unit), none)) (fun _ => none)
        [("x_forwarded_for", GoVal.other)] ()).panicked = true
      ∧ (analyticsMethodRun "HelloWorld" "Speak"
        (fun _ _ => ((none : Option Unit), none)) (fun _ => none)
        [("x_forwarded_for", GoVal.other)] ()).trace = [])
    ∧ ∀ (g : GenState) (file : FileDescriptorProto)
        (service : ServiceDescriptorProto),
        ∀ m ∈ service.method,
          userIdAssertionLine ∈ (generateProtobufAnalytics g file service).output) :=
  analytics_unguarded_context_assertion "HelloWorld" "Speak"
    (fun _ _ => ((none : Option Unit), none)) (fun _ => none)
    [("x_forwarded_for", GoVal.other)] ()
    (by intro u hu; simp [ctxLookup] at hu)

/-- C1: the claim's error-overwrite law fails on the code.  The deferred
`err = i.client.Enqueue(track)` reassigns the named return unconditionally,
so with a delegate failing with `"someError"` and a sink whose submission
succeeds the wrapper returns a nil error — not `someError` as the claim's
first half states (its second half, submission failure overwriting a nil
error with `submitErr`, does hold). -/
theorem analytics_error_overwrite_at_failing_input :
    (analyticsMethodRun "HelloWorld" "Speak"
        (fun _ _ => ((none : Option Unit), some "someError")) (fun _ => none)
        [("x_forwarded_for", GoVal.str "1.2.3.4")] ()).err = none
    ∧ (analyticsMethodRun "HelloWorld" "Speak"
        (fun _ _ => ((none : Option Unit), none)) (fun _ => some "submitErr")
        [("x_forwarded_for", GoVal.str "1.2.3.4")] ()).err = some "submitErr" :=
  ⟨rfl, rfl⟩
